import Mathlib

/-!
# Verification of the sandbox require resolver and child_process wrapper

Shallow embedding of
`packages/@n8n/task-runner/src/js-task-runner/require-resolver.ts`.

JavaScript objects (environment mappings, option bags, and the loaded
`child_process` module object) are modelled as association lists from
`String` keys; lookup takes the first matching entry, matching JS object
semantics (where keys are unique).  The ambient `process.env` global is
threaded as an explicit parameter `processEnv`.  The host runtime's
`isBuiltin` classifier and the `require` loading mechanism are parameters
of the resolver, since they are external collaborators, not part of this
code.
-/

set_option autoImplicit false

namespace RequireResolver

/-- An environment mapping (JS `Record<string, string>`), as an
association list with first-match lookup semantics. -/
abbrev EnvMap := List (String × String)

/-- JS property lookup `o[k]` on an object represented as an association
list: first matching entry, `none` when the key is absent. -/
def getKey {α : Type} : List (String × α) → String → Option α
  | [], _ => none
  | p :: rest, k => if p.1 = k then some p.2 else getKey rest k

/-- JS `delete o[k]`: removes every entry with key `k` (an object holds at
most one). -/
def deleteKey {α : Type} : List (String × α) → String → List (String × α)
  | [], _ => []
  | p :: rest, k => if p.1 = k then deleteKey rest k else p :: deleteKey rest k

/-- JS property update `o[k] = v` as performed by an object-spread
override `{...o, k: v}`: replaces the value at `k` if present, otherwise
appends the entry. -/
def setKey {α : Type} : List (String × α) → String → α → List (String × α)
  | [], k, v => [(k, v)]
  | p :: rest, k, v => if p.1 = k then (k, v) :: rest else p :: setKey rest k v

/-- The `SENSITIVE_ENV_VARS` constant of
`createSecureChildProcessWrapper`: the Secret Key Set. -/
def SENSITIVE_ENV_VARS : List String :=
  ["ANTHROPIC_API_KEY", "N8N_RUNNERS_GRANT_TOKEN", "N8N_RUNNERS_AUTH_TOKEN"]

/-- `stripSensitiveEnvVars` from the source: if no env is supplied, copy
`process.env` (here the explicit `processEnv` parameter) and delete each
sensitive key; otherwise copy the supplied env and delete each sensitive
key.  The `{...e}` copy is the identity in this pure embedding; the
`forEach`/`delete` loop is the fold of `deleteKey` over the key list. -/
def stripSensitiveEnvVars (processEnv : EnvMap) (env : Option EnvMap) : EnvMap :=
  match env with
  | none => SENSITIVE_ENV_VARS.foldl deleteKey processEnv
  | some e => SENSITIVE_ENV_VARS.foldl deleteKey e

/-- An options bag passed to a spawn-style operation: the `env` property
(if present) is distinguished; every other property is an opaque value
(identity given by a `Nat` tag) kept in `rest`. -/
structure JsOptions where
  env : Option EnvMap
  rest : List (String × Nat)
deriving DecidableEq

/-- The `secureOptions` object each of the four wrapped operations builds:
`{...options, env: stripSensitiveEnvVars(options?.env)}`.  Spreading an
absent (`undefined`) options object contributes no properties, so `rest`
defaults to empty; the `env` property is always set to the sanitized
mapping. -/
def secureOptionsOf (processEnv : EnvMap) (options : Option JsOptions) : JsOptions :=
  ⟨some (stripSensitiveEnvVars processEnv (options.bind JsOptions.env)),
   (options.map JsOptions.rest).getD []⟩

/-- The wrapped `spawn`: builds `secureOptions` and delegates to the raw
facility's `spawn`, returning its result.  The raw operation is a
parameter (it belongs to the host's `child_process`, an external
facility); its result type `α` is abstract. -/
def wrappedSpawn {α : Type} (childProcessSpawn : String → Option (List String) → JsOptions → α)
    (processEnv : EnvMap) (command : String) (args : Option (List String))
    (options : Option JsOptions) : α :=
  childProcessSpawn command args (secureOptionsOf processEnv options)

/-- The wrapped `exec`: builds `secureOptions` and delegates to the raw
`exec` with the command, the secure options, and the caller's callback
(opaque, identity by tag). -/
def wrappedExec {α : Type} (childProcessExec : String → JsOptions → Option Nat → α)
    (processEnv : EnvMap) (command : String) (options : Option JsOptions)
    (callback : Option Nat) : α :=
  childProcessExec command (secureOptionsOf processEnv options) callback

/-- The wrapped `execFile`: builds `secureOptions` and delegates to the
raw `execFile` with file, args, secure options and callback. -/
def wrappedExecFile {α : Type} (childProcessExecFile : String → Option (List String) → JsOptions → Option Nat → α)
    (processEnv : EnvMap) (file : String) (args : Option (List String))
    (options : Option JsOptions) (callback : Option Nat) : α :=
  childProcessExecFile file args (secureOptionsOf processEnv options) callback

/-- The wrapped `fork`: builds `secureOptions` and delegates to the raw
`fork` with module path, args and secure options. -/
def wrappedFork {α : Type} (childProcessFork : String → Option (List String) → JsOptions → α)
    (processEnv : EnvMap) (modulePath : String) (args : Option (List String))
    (options : Option JsOptions) : α :=
  childProcessFork modulePath args (secureOptionsOf processEnv options)

/-- A member value of a loaded module object.  A `rawMember` is any value
already present on the raw facility (identity given by a `Nat` tag); a
`wrappedOp` is one of the four freshly created sanitizing closures, which
— being freshly allocated functions — are distinct from every
pre-existing value. -/
inductive MemberVal where
  | rawMember (id : Nat)
  | wrappedOp (name : String)
deriving DecidableEq

/-- A loaded module object: an association list of member names to member
values. -/
abbrev JsObject := List (String × MemberVal)

/-- The object part of `createSecureChildProcessWrapper`: the literal
`{...childProcess, spawn: ..., exec: ..., execFile: ..., fork: ...}` —
every member of the raw facility is spread in, then the four spawn-style
keys are overridden with the fresh sanitizing closures (whose behavior is
modelled by `wrappedSpawn`, `wrappedExec`, `wrappedExecFile`,
`wrappedFork` above). -/
def createSecureChildProcessWrapper (childProcess : JsObject) : JsObject :=
  setKey (setKey (setKey (setKey childProcess
    "spawn" (MemberVal.wrappedOp "spawn"))
    "exec" (MemberVal.wrappedOp "exec"))
    "execFile" (MemberVal.wrappedOp "execFile"))
    "fork" (MemberVal.wrappedOp "fork")

/-- An allow-set: either the wildcard marker `"*"` or an explicit set of
module names (the TS `Set<string> | '*'` union). -/
inductive AllowList where
  | wildcard
  | explicit (modules : List String)
deriving DecidableEq

/-- The `RequireResolverOpts` configuration record. -/
structure RequireResolverOpts where
  allowedBuiltInModules : AllowList
  allowedExternalModules : AllowList

/-- The `DisallowedModuleError`, carrying the offending module name. -/
structure DisallowedModuleError where
  moduleName : String
deriving DecidableEq

/-- An error thrown out of the resolver: either the
`ExecutionError` envelope wrapping a `DisallowedModuleError` (the only
error the resolver itself constructs), or an error raised by the
underlying `require` mechanism, propagated unchanged (`ε` is the host's
error type, abstract). -/
inductive ResolveError (ε : Type) where
  | executionError (cause : DisallowedModuleError)
  | hostError (e : ε)
deriving DecidableEq

/-- The inner `checkIsAllowed` helper:
`allowList === '*' || allowList.has(moduleName)`. -/
def checkIsAllowed (allowList : AllowList) (moduleName : String) : Bool :=
  match allowList with
  | AllowList.wildcard => true
  | AllowList.explicit s => s.contains moduleName

/-- `createRequireResolver` applied to one request: classify via the
host's `isBuiltin`, check the matching allow-set, throw the wrapped
`DisallowedModuleError` when denied, otherwise load via the host's
`require` (`requireFn`, which may itself fail with a host error `ε`), and
substitute the secure wrapper exactly when the request is the literal
string `"child_process"`. -/
def createRequireResolver {ε : Type} (isBuiltin : String → Bool)
    (requireFn : String → Except ε JsObject)
    (opts : RequireResolverOpts) (request : String) :
    Except (ResolveError ε) JsObject :=
  let isAllowed :=
    if isBuiltin request then checkIsAllowed opts.allowedBuiltInModules request
    else checkIsAllowed opts.allowedExternalModules request
  if !isAllowed then
    Except.error (ResolveError.executionError ⟨request⟩)
  else
    match requireFn request with
    | Except.error e => Except.error (ResolveError.hostError e)
    | Except.ok modl =>
      if request = "child_process" then
        Except.ok (createSecureChildProcessWrapper modl)
      else
        Except.ok modl

/-- Is a member value one of the raw facility's own values (as opposed to
a freshly created wrapper closure)? -/
def MemberVal.isRaw : MemberVal → Bool
  | MemberVal.rawMember _ => true
  | MemberVal.wrappedOp _ => false

theorem getKey_deleteKey {α : Type} (o : List (String × α)) (k k' : String) :
    getKey (deleteKey o k) k' = if k' = k then none else getKey o k' := by
  induction o with
  | nil => simp [deleteKey, getKey]
  | cons p rest ih =>
    simp only [deleteKey]
    by_cases h1 : p.1 = k
    · rw [if_pos h1, ih]
      by_cases h2 : k' = k
      · rw [if_pos h2, if_pos h2]
      · have hp : ¬(p.1 = k') := fun hh => h2 (by rw [← hh]; exact h1)
        rw [if_neg h2, if_neg h2]
        simp [getKey, hp]
    · rw [if_neg h1]
      simp only [getKey]
      by_cases h2 : p.1 = k'
      · have hk : ¬(k' = k) := fun hh => h1 (by rw [h2, hh])
        simp [h2, hk]
      · simp [h2, ih]

theorem deleteKey_of_getKey_none {α : Type} (o : List (String × α)) (k : String)
    (h : getKey o k = none) : deleteKey o k = o := by
  induction o with
  | nil => simp [deleteKey]
  | cons p rest ih =>
    by_cases h1 : p.1 = k
    · simp [getKey, h1] at h
    · simp [getKey, h1] at h
      simp [deleteKey, h1, ih h]

theorem getKey_setKey_self {α : Type} (o : List (String × α)) (k : String) (v : α) :
    getKey (setKey o k v) k = some v := by
  induction o with
  | nil => simp [setKey, getKey]
  | cons p rest ih =>
    by_cases h1 : p.1 = k
    · simp [setKey, getKey, h1]
    · simp [setKey, getKey, h1, ih]

theorem getKey_setKey_ne {α : Type} (o : List (String × α)) (k k' : String) (v : α)
    (h : k' ≠ k) : getKey (setKey o k v) k' = getKey o k' := by
  induction o with
  | nil =>
    have hk : ¬(k = k') := fun hh => h hh.symm
    simp [setKey, getKey, hk]
  | cons p rest ih =>
    simp only [setKey]
    by_cases h1 : p.1 = k
    · have hk : ¬(k = k') := fun hh => h hh.symm
      have hp : ¬(p.1 = k') := fun hh => h (hh ▸ h1)
      rw [if_pos h1]
      simp [getKey, hk, hp]
    · rw [if_neg h1]
      simp only [getKey]
      by_cases h2 : p.1 = k'
      · simp [h2]
      · simp [h2, ih]

theorem getKey_mem {α : Type} (o : List (String × α)) (k : String) (v : α)
    (h : getKey o k = some v) : (k, v) ∈ o := by
  induction o with
  | nil => simp [getKey] at h
  | cons p rest ih =>
    cases p with
    | mk a b =>
      by_cases h1 : a = k
      · simp [getKey, h1] at h
        rw [← h1, ← h]
        exact List.mem_cons_self _ _
      · simp [getKey, h1] at h
        exact List.mem_cons_of_mem _ (ih h)

theorem getKey_foldl_deleteKey {α : Type} (ks : List String) :
    ∀ (e : List (String × α)) (k : String),
      getKey (ks.foldl deleteKey e) k = if k ∈ ks then none else getKey e k := by
  induction ks with
  | nil => intro e k; simp
  | cons a t ih =>
    intro e k
    by_cases hk : k ∈ t
    · simp [List.foldl, ih, hk]
    · by_cases ha : k = a
      · simp [List.foldl, ih, hk, getKey_deleteKey, ha]
      · simp [List.foldl, ih, hk, getKey_deleteKey, ha]

theorem foldl_deleteKey_of_clean {α : Type} (ks : List String) :
    ∀ (e : List (String × α)), (∀ k ∈ ks, getKey e k = none) → ks.foldl deleteKey e = e := by
  induction ks with
  | nil => intro e _; rfl
  | cons a t ih =>
    intro e h
    have ha : getKey e a = none := h a (List.mem_cons_self a t)
    have he : deleteKey e a = e := deleteKey_of_getKey_none e a ha
    simp [List.foldl, he]
    exact ih e fun k hk => h k (List.mem_cons_of_mem a hk)

/-- Characterization of `stripSensitiveEnvVars`: the sensitive keys are
gone, every other key keeps the value of the base mapping (the supplied
env when present, otherwise the ambient environment). -/
theorem getKey_strip (processEnv : EnvMap) (env : Option EnvMap) (k : String) :
    getKey (stripSensitiveEnvVars processEnv env) k =
      if k ∈ SENSITIVE_ENV_VARS then none else getKey (env.getD processEnv) k := by
  cases env with
  | none => simp [stripSensitiveEnvVars, getKey_foldl_deleteKey]
  | some e => simp [stripSensitiveEnvVars, getKey_foldl_deleteKey]

/-- A sensitive key is never present in a sanitized environment. -/
theorem getKey_strip_secret (processEnv : EnvMap) (env : Option EnvMap) (key : String)
    (hkey : key ∈ SENSITIVE_ENV_VARS) :
    getKey (stripSensitiveEnvVars processEnv env) key = none := by
  rw [getKey_strip]
  exact if_pos hkey

/-- C1: For every spawn-style operation of the filtered `child_process`
facility (`spawn`, `exec`, `execFile`, `fork`) and every invocation, no
environment entry whose key is in the Secret Key Set is present in the
environment passed to the underlying raw operation.  The raw operation is
instantiated with a projection so the options object it receives is
observed directly. -/
theorem no_secret_reaches_raw_spawn_ops
    (processEnv : EnvMap) (key : String) (hkey : key ∈ SENSITIVE_ENV_VARS) :
    (∀ (command : String) (args : Option (List String)) (options : Option JsOptions) (e : EnvMap),
        (wrappedSpawn (fun _ _ o => o) processEnv command args options).env = some e →
        getKey e key = none)
    ∧ (∀ (command : String) (options : Option JsOptions) (callback : Option Nat) (e : EnvMap),
        (wrappedExec (fun _ o _ => o) processEnv command options callback).env = some e →
        getKey e key = none)
    ∧ (∀ (file : String) (args : Option (List String)) (options : Option JsOptions)
          (callback : Option Nat) (e : EnvMap),
        (wrappedExecFile (fun _ _ o _ => o) processEnv file args options callback).env = some e →
        getKey e key = none)
    ∧ (∀ (modulePath : String) (args : Option (List String)) (options : Option JsOptions) (e : EnvMap),
        (wrappedFork (fun _ _ o => o) processEnv modulePath args options).env = some e →
        getKey e key = none) := by
  refine ⟨?_, ?_, ?_, ?_⟩
  · intro command args options e h
    rw [← Option.some.inj h]
    exact getKey_strip_secret processEnv _ key hkey
  · intro command options callback e h
    rw [← Option.some.inj h]
    exact getKey_strip_secret processEnv _ key hkey
  · intro file args options callback e h
    rw [← Option.some.inj h]
    exact getKey_strip_secret processEnv _ key hkey
  · intro modulePath args options e h
    rw [← Option.some.inj h]
    exact getKey_strip_secret processEnv _ key hkey

/-- Witness for C1: with `ANTHROPIC_API_KEY` in the ambient environment
and no explicit env option, the wrapped `spawn` delegates an environment
without that key. -/
theorem no_secret_reaches_raw_spawn_ops_witness :
    getKey (stripSensitiveEnvVars [("ANTHROPIC_API_KEY", "x"), ("PATH", "p")] none)
      "ANTHROPIC_API_KEY" = none :=
  (no_secret_reaches_raw_spawn_ops [("ANTHROPIC_API_KEY", "x"), ("PATH", "p")]
    "ANTHROPIC_API_KEY" (by decide)).1 "ls" none none _ rfl

/-- C2: each of the four sanitizing operations delegates exactly the
`secureOptions` object; its environment equals the supplied env option
(when present, otherwise the ambient environment) minus exactly the three
Secret Key Set keys, every other key keeping its value. -/
theorem sanitized_env_exact_content (processEnv : EnvMap) (options : Option JsOptions) (key : String) :
    (∀ (α : Type) (rawSpawn : String → Option (List String) → JsOptions → α)
        (command : String) (args : Option (List String)),
        wrappedSpawn rawSpawn processEnv command args options =
          rawSpawn command args (secureOptionsOf processEnv options))
    ∧ (∀ (α : Type) (rawExec : String → JsOptions → Option Nat → α)
        (command : String) (callback : Option Nat),
        wrappedExec rawExec processEnv command options callback =
          rawExec command (secureOptionsOf processEnv options) callback)
    ∧ (∀ (α : Type) (rawExecFile : String → Option (List String) → JsOptions → Option Nat → α)
        (file : String) (args : Option (List String)) (callback : Option Nat),
        wrappedExecFile rawExecFile processEnv file args options callback =
          rawExecFile file args (secureOptionsOf processEnv options) callback)
    ∧ (∀ (α : Type) (rawFork : String → Option (List String) → JsOptions → α)
        (modulePath : String) (args : Option (List String)),
        wrappedFork rawFork processEnv modulePath args options =
          rawFork modulePath args (secureOptionsOf processEnv options))
    ∧ (options.bind JsOptions.env = none →
        getKey ((secureOptionsOf processEnv options).env.getD []) key =
          if key ∈ SENSITIVE_ENV_VARS then none else getKey processEnv key)
    ∧ (∀ e, options.bind JsOptions.env = some e →
        getKey ((secureOptionsOf processEnv options).env.getD []) key =
          if key ∈ SENSITIVE_ENV_VARS then none else getKey e key) := by
  refine ⟨fun _ _ _ _ => rfl, fun _ _ _ _ => rfl, fun _ _ _ _ _ => rfl, fun _ _ _ _ => rfl, ?_, ?_⟩
  · intro h
    simp [secureOptionsOf, h, getKey_strip]
  · intro e h
    simp [secureOptionsOf, h, getKey_strip]

/-- Witness for C2, mirroring the spec's scenario: explicit
`env = {SECRET: "x"}` with `ANTHROPIC_API_KEY` set in the ambient
environment yields a delegated env holding `SECRET` only; with no
explicit env, the ambient `PATH` survives and the secret does not. -/
theorem sanitized_env_exact_content_witness :
    (getKey ((secureOptionsOf [("ANTHROPIC_API_KEY", "k"), ("PATH", "p")]
        (some ⟨some [("SECRET", "x")], []⟩)).env.getD []) "SECRET" = some "x")
    ∧ (getKey ((secureOptionsOf [("ANTHROPIC_API_KEY", "k"), ("PATH", "p")]
        (some ⟨some [("SECRET", "x")], []⟩)).env.getD []) "ANTHROPIC_API_KEY" = none)
    ∧ (getKey ((secureOptionsOf [("ANTHROPIC_API_KEY", "k"), ("PATH", "p")] none).env.getD [])
        "PATH" = some "p")
    ∧ (getKey ((secureOptionsOf [("ANTHROPIC_API_KEY", "k"), ("PATH", "p")] none).env.getD [])
        "ANTHROPIC_API_KEY" = none) := by
  refine ⟨?_, ?_, ?_, ?_⟩
  · have h := ((sanitized_env_exact_content [("ANTHROPIC_API_KEY", "k"), ("PATH", "p")]
      (some ⟨some [("SECRET", "x")], []⟩) "SECRET").2.2.2.2.2) [("SECRET", "x")] rfl
    rw [h]; decide
  · have h := ((sanitized_env_exact_content [("ANTHROPIC_API_KEY", "k"), ("PATH", "p")]
      (some ⟨some [("SECRET", "x")], []⟩) "ANTHROPIC_API_KEY").2.2.2.2.2) [("SECRET", "x")] rfl
    rw [h]; decide
  · have h := ((sanitized_env_exact_content [("ANTHROPIC_API_KEY", "k"), ("PATH", "p")]
      none "PATH").2.2.2.2.1) rfl
    rw [h]; decide
  · have h := ((sanitized_env_exact_content [("ANTHROPIC_API_KEY", "k"), ("PATH", "p")]
      none "ANTHROPIC_API_KEY").2.2.2.2.1) rfl
    rw [h]; decide

/-- C6: each wrapped operation forwards the command/file/module path, the
argument list, every non-env option property and the callback verbatim to
the raw operation, substitutes only the `env` property, and returns the
raw operation's own result unmodified (the result is literally the raw
call's value, for an arbitrary raw operation and result type). -/
theorem wrapped_ops_transparent (processEnv : EnvMap) (options : Option JsOptions) :
    (∀ (α : Type) (rawSpawn : String → Option (List String) → JsOptions → α)
        (command : String) (args : Option (List String)),
        wrappedSpawn rawSpawn processEnv command args options =
          rawSpawn command args
            ⟨some (stripSensitiveEnvVars processEnv (options.bind JsOptions.env)),
             (options.map JsOptions.rest).getD []⟩)
    ∧ (∀ (α : Type) (rawExec : String → JsOptions → Option Nat → α)
        (command : String) (callback : Option Nat),
        wrappedExec rawExec processEnv command options callback =
          rawExec command
            ⟨some (stripSensitiveEnvVars processEnv (options.bind JsOptions.env)),
             (options.map JsOptions.rest).getD []⟩ callback)
    ∧ (∀ (α : Type) (rawExecFile : String → Option (List String) → JsOptions → Option Nat → α)
        (file : String) (args : Option (List String)) (callback : Option Nat),
        wrappedExecFile rawExecFile processEnv file args options callback =
          rawExecFile file args
            ⟨some (stripSensitiveEnvVars processEnv (options.bind JsOptions.env)),
             (options.map JsOptions.rest).getD []⟩ callback)
    ∧ (∀ (α : Type) (rawFork : String → Option (List String) → JsOptions → α)
        (modulePath : String) (args : Option (List String)),
        wrappedFork rawFork processEnv modulePath args options =
          rawFork modulePath args
            ⟨some (stripSensitiveEnvVars processEnv (options.bind JsOptions.env)),
             (options.map JsOptions.rest).getD []⟩) :=
  ⟨fun _ _ _ _ => rfl, fun _ _ _ _ => rfl, fun _ _ _ _ _ => rfl, fun _ _ _ _ => rfl⟩

/-- C9: sanitizing an environment that already lacks every Secret Key Set
entry returns it unchanged (the embedding is pure, so the input mapping
is never mutated); the same holds for a clean ambient environment when no
explicit env is supplied. -/
theorem strip_idempotent_on_clean (processEnv e : EnvMap)
    (he : ∀ k ∈ SENSITIVE_ENV_VARS, getKey e k = none) :
    stripSensitiveEnvVars processEnv (some e) = e
    ∧ ((∀ k ∈ SENSITIVE_ENV_VARS, getKey processEnv k = none) →
        stripSensitiveEnvVars processEnv none = processEnv) := by
  constructor
  · exact foldl_deleteKey_of_clean _ e he
  · intro hp
    exact foldl_deleteKey_of_clean _ processEnv hp

/-- Witness for C9: a concrete clean environment is returned unchanged. -/
theorem strip_idempotent_on_clean_witness :
    stripSensitiveEnvVars [] (some [("PATH", "p"), ("HOME", "h")]) = [("PATH", "p"), ("HOME", "h")] :=
  (strip_idempotent_on_clean [] [("PATH", "p"), ("HOME", "h")] (by decide)).1

/-- C10: the options object delegated to each raw operation always
carries an explicit `env` entry, even when the caller supplied no options
or no env option, so a wrapped spawn never relies on implicit
parent-environment inheritance. -/
theorem delegated_options_always_have_env (processEnv : EnvMap) (options : Option JsOptions)
    (command file modulePath : String) (args : Option (List String)) (callback : Option Nat) :
    ((wrappedSpawn (fun _ _ o => o) processEnv command args options).env).isSome = true
    ∧ ((wrappedExec (fun _ o _ => o) processEnv command options callback).env).isSome = true
    ∧ ((wrappedExecFile (fun _ _ o _ => o) processEnv file args options callback).env).isSome = true
    ∧ ((wrappedFork (fun _ _ o => o) processEnv modulePath args options).env).isSome = true :=
  ⟨rfl, rfl, rfl, rfl⟩

/-- A concrete always-succeeding host loader, for witnesses. -/
def okLoader : String → Except Unit JsObject := fun _ => Except.ok []

/-- A concrete always-failing host loader, for witnesses. -/
def failingLoader : String → Except String JsObject := fun _ => Except.error "module not found"

/-- C3: a request whose name is not in the applicable non-wildcard
allow-set fails with the `DisallowedModuleError` carrying that exact name
wrapped in the `ExecutionError` envelope, and no load is attempted: the
outcome is the same for every possible host loader. -/
theorem denied_request_fails_without_load {ε : Type}
    (isBuiltin : String → Bool) (opts : RequireResolverOpts) (request : String)
    (mods : List String)
    (happ : (if isBuiltin request then opts.allowedBuiltInModules
             else opts.allowedExternalModules) = AllowList.explicit mods)
    (hnot : request ∉ mods) :
    ∀ requireFn : String → Except ε JsObject,
      createRequireResolver isBuiltin requireFn opts request =
        Except.error (ResolveError.executionError ⟨request⟩) := by
  intro requireFn
  by_cases hb : isBuiltin request = true
  · simp [hb] at happ
    simp [createRequireResolver, hb, happ, checkIsAllowed, hnot]
  · simp [hb] at happ
    simp [createRequireResolver, hb, happ, checkIsAllowed, hnot]

/-- Witness for C3: `"net"` against built-in allow-set `{"fs"}` is denied
with the wrapped error naming `"net"`. -/
theorem denied_request_fails_without_load_witness :
    createRequireResolver (fun _ => true) okLoader
      ⟨AllowList.explicit ["fs"], AllowList.wildcard⟩ "net" =
      Except.error (ResolveError.executionError ⟨"net"⟩) :=
  denied_request_fails_without_load (fun _ => true)
    ⟨AllowList.explicit ["fs"], AllowList.wildcard⟩ "net" ["fs"] rfl (by decide) okLoader

/-- C5: a built-in-classified name is decided solely by the built-in
allow-set (the resolution outcome is unchanged under any replacement of
the external allow-set) and an external-classified name solely by the
external allow-set. -/
theorem classification_selects_allow_set {ε : Type}
    (isBuiltin : String → Bool) (requireFn : String → Except ε JsObject)
    (request : String) (bi bi' ext ext' : AllowList) :
    (isBuiltin request = true →
        createRequireResolver isBuiltin requireFn ⟨bi, ext⟩ request =
          createRequireResolver isBuiltin requireFn ⟨bi, ext'⟩ request)
    ∧ (isBuiltin request = false →
        createRequireResolver isBuiltin requireFn ⟨bi, ext⟩ request =
          createRequireResolver isBuiltin requireFn ⟨bi', ext⟩ request) := by
  constructor
  · intro h
    simp [createRequireResolver, h]
  · intro h
    simp [createRequireResolver, h]

/-- Witness for C5 at concrete classifiers, requests and allow-sets. -/
theorem classification_selects_allow_set_witness :
    (createRequireResolver (fun _ => true) okLoader
        ⟨AllowList.wildcard, AllowList.explicit []⟩ "fs" =
      createRequireResolver (fun _ => true) okLoader
        ⟨AllowList.wildcard, AllowList.explicit ["x"]⟩ "fs")
    ∧ (createRequireResolver (fun _ => false) okLoader
        ⟨AllowList.explicit [], AllowList.wildcard⟩ "lodash" =
      createRequireResolver (fun _ => false) okLoader
        ⟨AllowList.explicit ["y"], AllowList.wildcard⟩ "lodash") :=
  ⟨(classification_selects_allow_set (fun _ => true) okLoader "fs"
      AllowList.wildcard AllowList.wildcard (AllowList.explicit []) (AllowList.explicit ["x"])).1 rfl,
   (classification_selects_allow_set (fun _ => false) okLoader "lodash"
      (AllowList.explicit []) (AllowList.explicit ["y"]) AllowList.wildcard AllowList.wildcard).2 rfl⟩

/-- C7: a wildcard allow-set admits every name of its classification —
resolution never produces the denial error, whatever the other allow-set
holds. -/
theorem wildcard_admits_every_name {ε : Type}
    (isBuiltin : String → Bool) (requireFn : String → Except ε JsObject) (request : String) :
    (∀ ext : AllowList, isBuiltin request = true →
        ∀ d : DisallowedModuleError,
          createRequireResolver isBuiltin requireFn ⟨AllowList.wildcard, ext⟩ request ≠
            Except.error (ResolveError.executionError d))
    ∧ (∀ bi : AllowList, isBuiltin request = false →
        ∀ d : DisallowedModuleError,
          createRequireResolver isBuiltin requireFn ⟨bi, AllowList.wildcard⟩ request ≠
            Except.error (ResolveError.executionError d)) := by
  constructor
  · intro ext h d
    simp only [createRequireResolver, h, checkIsAllowed, if_true, Bool.not_true]
    cases hload : requireFn request with
    | error e => simp [hload]
    | ok m =>
      by_cases hr : request = "child_process" <;> simp [hload, hr]
  · intro bi h d
    simp only [createRequireResolver, h, checkIsAllowed, if_false, Bool.not_true]
    cases hload : requireFn request with
    | error e => simp [hload]
    | ok m =>
      by_cases hr : request = "child_process" <;> simp [hload, hr]

/-- Witness for C7: `"lodash"` with external allow-set `"*"` and an empty
built-in allow-set is not denied. -/
theorem wildcard_admits_every_name_witness :
    createRequireResolver (fun _ => false) okLoader
      ⟨AllowList.explicit [], AllowList.wildcard⟩ "lodash" ≠
      Except.error (ResolveError.executionError ⟨"lodash"⟩) :=
  (wildcard_admits_every_name (fun _ => false) okLoader "lodash").2
    (AllowList.explicit []) rfl ⟨"lodash"⟩

/-- C8: when a request is admitted and the underlying load mechanism
fails, the resolver's outcome carries that host error unchanged — it is
not caught, reinterpreted or wrapped in the `ExecutionError`/
`DisallowedModuleError` shape, which the resolver only produces for
denials. -/
theorem load_failures_propagate_unchanged {ε : Type}
    (isBuiltin : String → Bool) (requireFn : String → Except ε JsObject)
    (opts : RequireResolverOpts) (request : String) (e : ε)
    (hadm : (if isBuiltin request then checkIsAllowed opts.allowedBuiltInModules request
             else checkIsAllowed opts.allowedExternalModules request) = true)
    (hfail : requireFn request = Except.error e) :
    createRequireResolver isBuiltin requireFn opts request =
      Except.error (ResolveError.hostError e) := by
  simp [createRequireResolver, hadm, hfail]

/-- Witness for C8: an admitted `"fs"` whose load fails with
`"module not found"` surfaces exactly that host error. -/
theorem load_failures_propagate_unchanged_witness :
    createRequireResolver (fun _ => true) failingLoader
      ⟨AllowList.wildcard, AllowList.wildcard⟩ "fs" =
      Except.error (ResolveError.hostError "module not found") :=
  load_failures_propagate_unchanged (fun _ => true) failingLoader
    ⟨AllowList.wildcard, AllowList.wildcard⟩ "fs" "module not found" rfl rfl

/-- C4: on a raw facility (all of whose members are raw values), the
wrapper replaces exactly the four spawn-style members with fresh
callables different from the raw ones, leaves every other member
identical, and the resolver applies the wrapper exactly for the literal
request `"child_process"`, returning every other admitted module
unmodified. -/
theorem child_process_wrapper_members {ε : Type} (childProcess : JsObject)
    (hraw : ∀ p ∈ childProcess, MemberVal.isRaw p.2 = true) :
    (getKey (createSecureChildProcessWrapper childProcess) "spawn" =
        some (MemberVal.wrappedOp "spawn")
      ∧ getKey (createSecureChildProcessWrapper childProcess) "spawn" ≠
        getKey childProcess "spawn")
    ∧ (getKey (createSecureChildProcessWrapper childProcess) "exec" =
        some (MemberVal.wrappedOp "exec")
      ∧ getKey (createSecureChildProcessWrapper childProcess) "exec" ≠
        getKey childProcess "exec")
    ∧ (getKey (createSecureChildProcessWrapper childProcess) "execFile" =
        some (MemberVal.wrappedOp "execFile")
      ∧ getKey (createSecureChildProcessWrapper childProcess) "execFile" ≠
        getKey childProcess "execFile")
    ∧ (getKey (createSecureChildProcessWrapper childProcess) "fork" =
        some (MemberVal.wrappedOp "fork")
      ∧ getKey (createSecureChildProcessWrapper childProcess) "fork" ≠
        getKey childProcess "fork")
    ∧ (∀ k, k ≠ "spawn" → k ≠ "exec" → k ≠ "execFile" → k ≠ "fork" →
        getKey (createSecureChildProcessWrapper childProcess) k = getKey childProcess k)
    ∧ (∀ (isBuiltin : String → Bool) (requireFn : String → Except ε JsObject)
          (opts : RequireResolverOpts) (request : String) (m : JsObject),
        (if isBuiltin request then checkIsAllowed opts.allowedBuiltInModules request
         else checkIsAllowed opts.allowedExternalModules request) = true →
        requireFn request = Except.ok m →
        createRequireResolver isBuiltin requireFn opts request =
          Except.ok (if request = "child_process" then createSecureChildProcessWrapper m else m)) := by
  have hwrapped : ∀ v, MemberVal.isRaw v = true → ∀ name, v ≠ MemberVal.wrappedOp name := by
    intro v hv name hcontra
    rw [hcontra] at hv
    simp [MemberVal.isRaw] at hv
  have hne : ∀ opName : String,
      getKey (createSecureChildProcessWrapper childProcess) opName =
        some (MemberVal.wrappedOp opName) →
      getKey (createSecureChildProcessWrapper childProcess) opName ≠
        getKey childProcess opName := by
    intro opName hop hcontra
    rw [hop] at hcontra
    cases hcp : getKey childProcess opName with
    | none => rw [hcp] at hcontra; exact Option.noConfusion hcontra
    | some v =>
      rw [hcp] at hcontra
      have hv := hraw (opName, v) (getKey_mem childProcess opName v hcp)
      exact hwrapped v hv opName (Option.some.inj hcontra).symm
  have hspawn : getKey (createSecureChildProcessWrapper childProcess) "spawn" =
      some (MemberVal.wrappedOp "spawn") := by
    unfold createSecureChildProcessWrapper
    rw [getKey_setKey_ne _ _ _ _ (by decide), getKey_setKey_ne _ _ _ _ (by decide),
      getKey_setKey_ne _ _ _ _ (by decide), getKey_setKey_self]
  have hexec : getKey (createSecureChildProcessWrapper childProcess) "exec" =
      some (MemberVal.wrappedOp "exec") := by
    unfold createSecureChildProcessWrapper
    rw [getKey_setKey_ne _ _ _ _ (by decide), getKey_setKey_ne _ _ _ _ (by decide),
      getKey_setKey_self]
  have hexecFile : getKey (createSecureChildProcessWrapper childProcess) "execFile" =
      some (MemberVal.wrappedOp "execFile") := by
    unfold createSecureChildProcessWrapper
    rw [getKey_setKey_ne _ _ _ _ (by decide), getKey_setKey_self]
  have hfork : getKey (createSecureChildProcessWrapper childProcess) "fork" =
      some (MemberVal.wrappedOp "fork") := by
    unfold createSecureChildProcessWrapper
    rw [getKey_setKey_self]
  refine ⟨⟨hspawn, hne _ hspawn⟩, ⟨hexec, hne _ hexec⟩, ⟨hexecFile, hne _ hexecFile⟩,
    ⟨hfork, hne _ hfork⟩, ?_, ?_⟩
  · intro k h1 h2 h3 h4
    unfold createSecureChildProcessWrapper
    rw [getKey_setKey_ne _ _ _ _ h4, getKey_setKey_ne _ _ _ _ h3,
      getKey_setKey_ne _ _ _ _ h2, getKey_setKey_ne _ _ _ _ h1]
  · intro isBuiltin requireFn opts request m hadm hok
    simp only [createRequireResolver, hadm, hok]
    by_cases hr : request = "child_process" <;> simp [hr]

/-- A concrete host loader returning a small raw `child_process`-like
facility, for witnesses. -/
def cpLoader : String → Except Unit JsObject :=
  fun _ => Except.ok [("spawn", MemberVal.rawMember 0), ("ChildProcess", MemberVal.rawMember 1)]

/-- Witness for C4: on a two-member raw facility, the wrapped `spawn`
differs from the raw one, the non-spawn member `ChildProcess` is
forwarded identically, and resolving `"child_process"` under a wildcard
allow-set yields the wrapped facility. -/
theorem child_process_wrapper_members_witness :
    (getKey (createSecureChildProcessWrapper
        [("spawn", MemberVal.rawMember 0), ("ChildProcess", MemberVal.rawMember 1)]) "spawn" ≠
      getKey [("spawn", MemberVal.rawMember 0), ("ChildProcess", MemberVal.rawMember 1)] "spawn")
    ∧ (getKey (createSecureChildProcessWrapper
        [("spawn", MemberVal.rawMember 0), ("ChildProcess", MemberVal.rawMember 1)]) "ChildProcess" =
      getKey [("spawn", MemberVal.rawMember 0), ("ChildProcess", MemberVal.rawMember 1)] "ChildProcess")
    ∧ (createRequireResolver (fun _ => true) cpLoader
        ⟨AllowList.wildcard, AllowList.wildcard⟩ "child_process" =
      Except.ok (createSecureChildProcessWrapper
        [("spawn", MemberVal.rawMember 0), ("ChildProcess", MemberVal.rawMember 1)])) := by
  have h := @child_process_wrapper_members Unit
    [("spawn", MemberVal.rawMember 0), ("ChildProcess", MemberVal.rawMember 1)] (by decide)
  refine ⟨h.1.2, h.2.2.2.2.1 "ChildProcess" (by decide) (by decide) (by decide) (by decide), ?_⟩
  have h3 := h.2.2.2.2.2 (fun _ => true) cpLoader
    ⟨AllowList.wildcard, AllowList.wildcard⟩ "child_process"
    [("spawn", MemberVal.rawMember 0), ("ChildProcess", MemberVal.rawMember 1)] rfl rfl
  simpa using h3

end RequireResolver
